import Mathlib

/-!
Verification model of the asynchronous file-processing service
(`FileProcessingService`): the bounded-concurrency admission queue and
dispatcher (`processFile` / `processNext` / `processFileInternal`) and the
CSV, PDF and text analyzers, embedded shallowly from the JavaScript
source.  JavaScript strings are modelled as Lean strings over their code
points; calls into host libraries (sharp, csv-parser, XLSX, the
filesystem and the clock) enter the model as explicit oracle inputs.
-/

namespace FileProc

/-- Characters matched by the JavaScript regex class `\s` on the ASCII
range (space, tab, line feed, carriage return, vertical tab, form feed).
The Unicode space classes are not exercised by this code. -/
def jsSpace (c : Char) : Bool :=
  c == ' ' || c == '\t' || c == '\n' || c == '\r' || c == '\x0b' || c == '\x0c'

/-- JavaScript `String.prototype.trim`: strip whitespace from both ends. -/
def jsTrim (s : String) : String :=
  (((s.toList.dropWhile jsSpace).reverse.dropWhile jsSpace).reverse).asString

/-- JavaScript `String.prototype.split` at every character satisfying `p`,
keeping empty pieces: the result has one piece per gap, so it is never
empty (splitting the empty string yields one empty piece, which is why a
line count obtained this way is always at least 1). -/
def splitChars (p : Char → Bool) : List Char → List (List Char)
  | [] => [[]]
  | c :: rest =>
    if p c then [] :: splitChars p rest
    else
      match splitChars p rest with
      | [] => [[c]]
      | piece :: pieces => (c :: piece) :: pieces

/-- `text.split('\n')` from `processText`. -/
def jsLines (s : String) : List String :=
  (splitChars (· == '\n') s.toList).map List.asString

/-- `text.split(/\s+/).filter(word => word.length > 0)` from `processText`:
splitting at whitespace runs and discarding empty tokens produces the same
token list as splitting at every whitespace character and discarding the
empty pieces, which is how it is modelled here. -/
def jsWords (s : String) : List String :=
  ((splitChars jsSpace s.toList).map List.asString).filter (fun w => !w.isEmpty)

/-- JavaScript `(w / l).toFixed(1)` for natural `w` and positive `l`: the
exact quotient rounded to one decimal digit, ties upward, per the
ECMAScript `toFixed` specification, rendered as `<integer>.<digit>`. -/
def toFixed1 (w l : Nat) : String :=
  let n := (20 * w + l) / (2 * l)
  toString (n / 10) ++ "." ++ toString (n % 10)

/-- JavaScript `text.substring(0, n)`. -/
def jsSubstringTo (s : String) (n : Nat) : String :=
  (s.toList.take n).asString

/-- The `textAnalysis` object built by `processText`. -/
structure TextAnalysis where
  lineCount : Nat
  wordCount : Nat
  characterCount : Nat
  averageWordsPerLine : String
  encoding : String
  preview : String
  deriving DecidableEq

/-- The `fileStats` object built by `processText`. -/
structure TextFileStats where
  size : Nat
  isEmpty : Bool
  deriving DecidableEq

/-- Return value of `FileProcessingService.processText`. -/
structure TextResult where
  textAnalysis : TextAnalysis
  fileStats : TextFileStats
  deriving DecidableEq

/-- `FileProcessingService.processText`, on the decoded UTF-8 text of the
uploaded buffer (sizes are counted in code points, which coincides with
the byte length on the ASCII payloads exercised here). -/
def processText (text : String) : TextResult :=
  let lines := jsLines text
  let words := jsWords text
  let characters := text.length
  { textAnalysis :=
      { lineCount := lines.length
        wordCount := words.length
        characterCount := characters
        averageWordsPerLine := toFixed1 words.length lines.length
        encoding := "UTF-8"
        preview := jsSubstringTo text 200 ++ (if 200 < text.length then "..." else "") }
    fileStats :=
      { size := text.length
        isEmpty := jsTrim text == "" } }

theorem splitChars_ne_nil (p : Char → Bool) (cs : List Char) :
    splitChars p cs ≠ [] := by
  induction cs with
  | nil => simp [splitChars]
  | cons c rest ih =>
    simp only [splitChars]
    by_cases h : p c
    · simp [h]
    · simp only [h]
      cases hs : splitChars p rest with
      | nil => simp
      | cons piece pieces => simp

theorem jsLines_length_pos (s : String) : 1 ≤ (jsLines s).length := by
  unfold jsLines
  rcases hs : splitChars (· == '\n') s.toList with _ | ⟨piece, pieces⟩
  · exact absurd hs (splitChars_ne_nil _ _)
  · simp

theorem asString_toList (s : String) : s.toList.asString = s := rfl

theorem jsSubstringTo_of_le (s : String) (n : Nat) (h : s.length ≤ n) :
    jsSubstringTo s n = s := by
  unfold jsSubstringTo
  rw [List.take_of_length_le (show s.toList.length ≤ n from h)]
  exact asString_toList s

/-! ## PDF analyzer -/

/-- Does `hay` start with `needle`? (helper for substring search). -/
def beginsWith : List Char → List Char → Bool
  | _, [] => true
  | [], _ :: _ => false
  | c :: cs, d :: ds => c == d && beginsWith cs ds

/-- Contiguous substring search on character lists. -/
def hasSub (hay needle : List Char) : Bool :=
  match hay with
  | [] => needle.isEmpty
  | _ :: rest => beginsWith hay needle || hasSub rest needle

/-- JavaScript `buffer.includes(Buffer.from(needle))`: contiguous
byte-substring search, modelled on the code points of the buffer. -/
def bufIncludes (hay needle : String) : Bool :=
  hasSub hay.toList needle.toList

/-- One anchored attempt of the regex `%PDF-(\d\.\d)` at the current
position: the literal `%PDF-` followed by digit, dot, digit, capturing
the three version characters. -/
def pdfVersionAt (cs : List Char) : Option String :=
  match cs with
  | '%' :: 'P' :: 'D' :: 'F' :: '-' :: d1 :: '.' :: d2 :: _ =>
    if d1.isDigit && d2.isDigit then some ([d1, '.', d2]).asString else none
  | _ => none

/-- Scan for the leftmost occurrence of the regex `%PDF-(\d\.\d)`, as in
`pdfHeader.match(/%PDF-(\d\.\d)/)`: attempt an anchored match at each
offset from the left and return the first capture. -/
def findPdfVersionIn : List Char → Option String
  | [] => none
  | c :: rest =>
    match pdfVersionAt (c :: rest) with
    | some v => some v
    | none => findPdfVersionIn rest

/-- `FileProcessingService.extractPDFVersion`: take the first ten bytes of
the buffer (`buffer.slice(0, 10).toString()`) and search them — anywhere,
the regex is not anchored — for `%PDF-<digit>.<digit>`, returning the
captured digits or `"Unknown"`. -/
def extractPDFVersion (buffer : String) : String :=
  match findPdfVersionIn (buffer.toList.take 10) with
  | some v => v
  | none => "Unknown"

/-- The `securityFeatures` object built by `processPDF`. -/
structure SecurityFeatures where
  encrypted : Bool
  hasDigitalSignature : Bool
  hasWatermark : Bool
  deriving DecidableEq

/-- The `pdfAnalysis` object built by `processPDF`. -/
structure PdfAnalysis where
  estimatedPages : Nat
  fileSize : Nat
  hasImages : Bool
  hasText : Bool
  securityFeatures : SecurityFeatures
  deriving DecidableEq

/-- The `extractedMetadata` object built by `processPDF`. -/
structure PdfMetadata where
  version : String
  producer : String
  deriving DecidableEq

/-- Return value of `FileProcessingService.processPDF`. -/
structure PdfResult where
  pdfAnalysis : PdfAnalysis
  extractedMetadata : PdfMetadata
  deriving DecidableEq

/-- `FileProcessingService.processPDF` on the raw buffer bytes (modelled
as code points; the markers searched for are ASCII). -/
def processPDF (buffer : String) : PdfResult :=
  let estimatedPages := max 1 (buffer.length / 50000)
  let hasImages := bufIncludes buffer "/Image"
  let hasText := bufIncludes buffer "/Text"
  { pdfAnalysis :=
      { estimatedPages := estimatedPages
        fileSize := buffer.length
        hasImages := hasImages
        hasText := hasText
        securityFeatures :=
          { encrypted := bufIncludes buffer "/Encrypt"
            hasDigitalSignature := bufIncludes buffer "/Sig"
            hasWatermark := false } }
    extractedMetadata :=
      { version := extractPDFVersion buffer
        producer := "Mock PDF Processor v1.0" } }

/-! ## CSV column-type inference -/

/-- Digits-only check. -/
def allDigits (cs : List Char) : Bool := cs.all Char.isDigit

/-- An unsigned decimal numeral: `d+`, `d+.d*` or `.d+`. -/
def decNumeral (cs : List Char) : Bool :=
  match cs with
  | '.' :: rest => !rest.isEmpty && allDigits rest
  | _ =>
    let intPart := cs.takeWhile Char.isDigit
    let rest := cs.dropWhile Char.isDigit
    !intPart.isEmpty &&
      (match rest with
       | [] => true
       | '.' :: frac => allDigits frac
       | _ => false)

/-- Strip one optional leading sign. -/
def dropSign : List Char → List Char
  | '+' :: rest => rest
  | '-' :: rest => rest
  | rest => rest

/-- Model of JavaScript `!isNaN(v)` (string-to-number coercion does not
yield NaN) on the decimal fragment: after trimming, the string is empty
(it coerces to 0) or an optionally signed decimal numeral.  Hexadecimal,
exponent and Infinity forms are not exercised by the inputs of this
service and are outside the model. -/
def jsToNumberDefined (v : String) : Bool :=
  let t := (jsTrim v).toList
  t.isEmpty || decNumeral (dropSign t)

/-- Model of JavaScript `!isNaN(parseFloat(v))`: after leading whitespace
and one optional sign, the string begins with a digit or with a dot
followed by a digit. -/
def jsParseFloatDefined (v : String) : Bool :=
  let core := dropSign (v.toList.dropWhile jsSpace)
  match core with
  | '.' :: d :: _ => d.isDigit
  | c :: _ => c.isDigit
  | [] => false

/-- The per-value numeric test of `analyzeCSVColumns`:
`!isNaN(v) && !isNaN(parseFloat(v))`. -/
def jsIsNumeric (v : String) : Bool :=
  jsToNumberDefined v && jsParseFloatDefined v

/-- The test `/\S+@\S+\.\S+/.test(v)` of `analyzeCSVColumns`.  The regex
matches exactly when some position `i` carries `@` and some later
position `j` carries `.`, with at least one character strictly between
them, at least one character directly before the `@` and one directly
after the `.`, and every character from the one before the `@` to the one
after the `.` being non-space. -/
def emailTest (v : String) : Bool :=
  let cs := v.toList
  let n := cs.length
  let ch := fun i : Nat => cs.getD i ' '
  (List.range n).any fun i =>
    (List.range n).any fun j =>
      decide (i + 2 ≤ j) && (ch i == '@') && (ch j == '.') &&
      decide (1 ≤ i) && decide (j + 1 < n) &&
      !jsSpace (ch (i - 1)) && !jsSpace (ch (j + 1)) &&
      (List.range' (i + 1) (j - (i + 1))).all fun m => !jsSpace (ch m)

/-- Model of JavaScript `!isNaN(Date.parse(v))` on the inputs this
service exercises: the ISO `YYYY-MM-DD` calendar-date form, the only date
shape appearing in the behavior under test, is parseable; everything else
is treated as unparseable.  (The lenient host parser accepts further
formats, none of which occur here.) -/
def jsDateParseable (v : String) : Bool :=
  match v.toList with
  | [y1, y2, y3, y4, '-', m1, m2, '-', d1, d2] =>
    allDigits [y1, y2, y3, y4, m1, m2, d1, d2] &&
    (let mo := (m1.toNat - '0'.toNat) * 10 + (m2.toNat - '0'.toNat)
     let da := (d1.toNat - '0'.toNat) * 10 + (d2.toNat - '0'.toNat)
     decide (1 ≤ mo) && decide (mo ≤ 12) && decide (1 ≤ da) && decide (da ≤ 31))
  | _ => false

/-- The classification step of `analyzeCSVColumns`, applied to the
already-filtered non-blank values of one column: `empty` for no values,
else `number` when every value is numeric, else `email` when some value
matches the email regex, else `date` when some value date-parses, else
`text` — in that order. -/
def classifyValues (values : List String) : String :=
  if values.isEmpty then "empty"
  else
    let hasNumbers := values.all jsIsNumeric
    let hasEmails := values.any emailTest
    let hasDates := values.any jsDateParseable
    if hasNumbers then "number"
    else if hasEmails then "email"
    else if hasDates then "date"
    else "text"

/-- `row[column]` on a parsed CSV row, modelled as association-list
lookup; a column absent from the row is `undefined`. -/
def rowGet (row : List (String × String)) (column : String) : Option String :=
  (row.find? (fun kv => kv.1 == column)).map (·.2)

/-- The filter `v && v.trim()` of `analyzeCSVColumns`: keep a value that
is defined, non-empty and non-blank after trimming. -/
def keepValue : Option String → Option String
  | none => none
  | some v => if !v.isEmpty && !(jsTrim v).isEmpty then some v else none

/-- `FileProcessingService.analyzeCSVColumns`: for each key of the first
sampled row, gather that column across all sampled rows, drop blank or
missing values, and classify. -/
def analyzeCSVColumns (sampleRows : List (List (String × String))) :
    List (String × String) :=
  match sampleRows with
  | [] => []
  | firstRow :: _ =>
    firstRow.map fun kv =>
      let column := kv.1
      let values := (sampleRows.map fun row => rowGet row column).filterMap keepValue
      (column, classifyValues values)

/-! ## File data, external collaborators, and the remaining analyzers -/

/-- The file record handed to `processFile` by the upload layer. -/
structure FileData where
  id : String
  mimetype : String
  size : Nat
  buffer : String
  filename : String
  deriving DecidableEq

/-- `path.extname`: the suffix from the last dot of the final path
segment, empty when there is no dot or when the segment starts with it. -/
def extname (filename : String) : String :=
  let base := (splitChars (· == '/') filename.toList).getLastD []
  let r := base.reverse
  let pre := r.takeWhile (fun c => c != '.')
  match r.drop pre.length with
  | '.' :: rest => if rest.isEmpty then "" else ('.' :: pre.reverse).asString
  | _ => ""

/-- JavaScript `s.replace(pat, repl)` with a string pattern: replace the
leftmost occurrence of `pat` only.  An empty pattern inserts at the
front, as in the host language. -/
def replaceFirstL (s pat repl : List Char) : List Char :=
  match s with
  | [] => if pat.isEmpty then repl else []
  | c :: rest =>
    if beginsWith s pat then repl ++ s.drop pat.length
    else c :: replaceFirstL rest pat repl

/-- String version of `replaceFirstL`. -/
def replaceFirst (s pat repl : String) : String :=
  (replaceFirstL s.toList pat.toList repl.toList).asString

/-- The thumbnail file name of `processImage`:
`'thumb_' + fileData.filename.replace(path.extname(fileData.filename), '.jpg')`. -/
def thumbName (filename : String) : String :=
  "thumb_" ++ replaceFirst filename (extname filename) ".jpg"

/-- Metadata reported by the host image library (`sharp(buffer).metadata()`). -/
structure ImageMeta where
  width : Nat
  height : Nat
  format : String
  channels : Nat
  hasAlpha : Bool
  space : String
  deriving DecidableEq

/-- JavaScript `(a / b).toFixed(2)` for naturals, on exact rationals. -/
def toFixed2 (a b : Nat) : String :=
  let n := (200 * a + b) / (2 * b)
  toString (n / 100) ++ "." ++
    (if n % 100 < 10 then "0" else "") ++ toString (n % 100)

/-- The `imageInfo` object built by `processImage`. -/
structure ImageInfo where
  width : Nat
  height : Nat
  format : String
  channels : Nat
  hasAlpha : Bool
  colorSpace : String
  deriving DecidableEq

/-- The `fileAnalysis` object built by `processImage`. -/
structure ImageFileAnalysis where
  aspectRatio : String
  megapixels : String
  estimatedColors : String
  deriving DecidableEq

/-- Return value of `FileProcessingService.processImage`. -/
structure ImageResult where
  imageInfo : ImageInfo
  thumbnailCreated : Bool
  thumbnailPath : String
  fileAnalysis : ImageFileAnalysis
  deriving DecidableEq

/-- Outcome of the csv-parser stream over the decoded buffer: the header
row and the data rows, in emission order. -/
structure CsvParsed where
  headers : List String
  rows : List (List (String × String))
  deriving DecidableEq

/-- The `csvAnalysis` object built by `processCSV`. -/
structure CsvAnalysis where
  totalRows : Nat
  columns : List String
  columnCount : Nat
  sampleData : List (List (String × String))
  estimatedDataTypes : List (String × String)
  deriving DecidableEq

/-- The `fileStats` object built by `processCSV`. -/
structure CsvFileStats where
  size : Nat
  encoding : String
  hasHeaders : Bool
  deriving DecidableEq

/-- Return value of `FileProcessingService.processCSV`. -/
structure CsvResult where
  csvAnalysis : CsvAnalysis
  fileStats : CsvFileStats
  deriving DecidableEq

/-- One worksheet as decoded by `XLSX.utils.sheet_to_json(ws, {header: 1})`. -/
structure SheetData where
  name : String
  rows : List (List String)
  deriving DecidableEq

/-- Outcome of `XLSX.read` on the buffer. -/
structure XlsxParsed where
  sheets : List SheetData
  author : Option String
  lastAuthor : Option String
  deriving DecidableEq

/-- One entry of the `sheetsInfo` array built by `processExcel`. -/
structure SheetInfo where
  name : String
  rowCount : Nat
  columnCount : Nat
  hasHeaders : Bool
  sampleData : List (List String)
  deriving DecidableEq

/-- The `workbookInfo` object built by `processExcel`. -/
structure WorkbookInfo where
  creator : String
  lastModifiedBy : String
  deriving DecidableEq

/-- The `excelAnalysis` object built by `processExcel`. -/
structure ExcelAnalysis where
  totalSheets : Nat
  sheets : List SheetInfo
  workbookInfo : WorkbookInfo
  deriving DecidableEq

/-- The `fileStats` object built by `processExcel`. -/
structure ExcelFileStats where
  size : Nat
  format : String
  deriving DecidableEq

/-- Return value of `FileProcessingService.processExcel`. -/
structure ExcelResult where
  excelAnalysis : ExcelAnalysis
  fileStats : ExcelFileStats
  deriving DecidableEq

/-- The external collaborators of one `processFileInternal` run: the two
clock reads and the outcomes of every host-library call that can occur.
A `.error` value models the host call throwing with that message. -/
structure Env where
  clock0 : Nat
  clock1 : Nat
  sharpMeta : Except String ImageMeta
  thumbnailWrite : Except String Unit
  csvParse : Except String CsvParsed
  xlsxRead : Except String XlsxParsed

/-- `new Date(t).toISOString()`, used only as an opaque time stamp. -/
def isoOf (t : Nat) : String := toString t

/-- `FileProcessingService.processImage`: read metadata, build and
persist the thumbnail (both host calls may throw, and a thrown error is
rewrapped with the `Image processing failed:` prefix), then report the
metadata and derived figures. -/
def processImage (fd : FileData) (env : Env) : Except String ImageResult :=
  match env.sharpMeta with
  | .error e => .error ("Image processing failed: " ++ e)
  | .ok md =>
    match env.thumbnailWrite with
    | .error e => .error ("Image processing failed: " ++ e)
    | .ok _ =>
      .ok { imageInfo :=
              { width := md.width
                height := md.height
                format := md.format
                channels := md.channels
                hasAlpha := md.hasAlpha
                colorSpace := md.space }
            thumbnailCreated := true
            thumbnailPath := "/uploads/thumbnails/" ++ thumbName fd.filename
            fileAnalysis :=
              { aspectRatio := toFixed2 md.width md.height
                megapixels := toFixed1 (md.width * md.height) 1000000
                estimatedColors := if md.channels == 1 then "Grayscale" else "Color" } }

/-- `FileProcessingService.processCSV`: run the csv-parser stream (whose
failure is rewrapped with the `CSV processing failed:` prefix); count
every data row, but retain at most the first five for sampling and emit
at most the first three. -/
def processCSV (fd : FileData) (env : Env) : Except String CsvResult :=
  match env.csvParse with
  | .error e => .error ("CSV processing failed: " ++ e)
  | .ok p =>
    let kept := p.rows.take 5
    .ok { csvAnalysis :=
            { totalRows := p.rows.length
              columns := p.headers
              columnCount := p.headers.length
              sampleData := kept.take 3
              estimatedDataTypes := analyzeCSVColumns kept }
          fileStats :=
            { size := fd.buffer.length
              encoding := "UTF-8"
              hasHeaders := !p.headers.isEmpty } }

/-- `FileProcessingService.processExcel`: decode the workbook (failure is
rewrapped with the `Excel processing failed:` prefix) and summarize every
sheet. -/
def processExcel (fd : FileData) (env : Env) : Except String ExcelResult :=
  match env.xlsxRead with
  | .error e => .error ("Excel processing failed: " ++ e)
  | .ok wb =>
    .ok { excelAnalysis :=
            { totalSheets := wb.sheets.length
              sheets := wb.sheets.map fun sd =>
                { name := sd.name
                  rowCount := sd.rows.length
                  columnCount :=
                    if sd.rows.isEmpty then 0
                    else (sd.rows.map List.length).foldr max 0
                  hasHeaders := !sd.rows.isEmpty && !(sd.rows.headD []).isEmpty
                  sampleData := sd.rows.take 3 }
              workbookInfo :=
                { creator := wb.author.getD "Unknown"
                  lastModifiedBy := wb.lastAuthor.getD "Unknown" } }
          fileStats :=
            { size := fd.buffer.length
              format := if bufIncludes fd.mimetype "openxml" then "XLSX" else "XLS" } }

/-! ## The dispatcher: processFileInternal and promise settlement -/

/-- The family-specific analysis carried by a delivered result: at most
one of these shapes is present, chosen by the declared media type. -/
inductive Payload where
  | image (r : ImageResult)
  | csv (r : CsvResult)
  | pdf (r : PdfResult)
  | excel (r : ExcelResult)
  | text (r : TextResult)
  deriving DecidableEq

/-- The mutable `processingResult` object of `processFileInternal`,
modelled with one optional field per property the function ever assigns.
`none` means the property is absent from the JavaScript object. -/
structure JobResult where
  startTime : Option String := none
  endTime : Option String := none
  processingDuration : Option Nat := none
  status : Option String := none
  error : Option String := none
  message : Option String := none
  fileInfo : Option (Nat × String) := none
  payload : Option Payload := none
  deriving DecidableEq

/-- The media types with a dedicated `switch` case in
`processFileInternal`; every other declared type falls to the default
branch. -/
def SUPPORTED_TYPES : List String :=
  ["image/jpeg", "image/png", "image/gif", "text/csv", "application/pdf",
   "application/vnd.openxmlformats-officedocument.spreadsheetml.sheet",
   "application/vnd.ms-excel", "text/plain"]

/-- The initial `processingResult` object of `processFileInternal`
(`{ startTime, status: 'processing' }`).  Every branch of the `switch`
reassigns the variable to a fresh object, so this value never reaches
the returned result. -/
def initialResult (startTime : Nat) : JobResult :=
  { startTime := some (isoOf startTime), status := some "processing" }

/-- The `switch (fileData.mimetype)` of `processFileInternal`: run the
analyzer selected by the declared media type and store its return value
in `processingResult` — replacing, not merging, the previous object.  An
unsupported type takes the default branch, which never throws. -/
def dispatchSwitch (fd : FileData) (env : Env) : Except String JobResult :=
  if fd.mimetype = "image/jpeg" ∨ fd.mimetype = "image/png" ∨
     fd.mimetype = "image/gif" then
    (processImage fd env).map fun r => { payload := some (.image r) }
  else if fd.mimetype = "text/csv" then
    (processCSV fd env).map fun r => { payload := some (.csv r) }
  else if fd.mimetype = "application/pdf" then
    .ok { payload := some (.pdf (processPDF fd.buffer)) }
  else if fd.mimetype = "application/vnd.openxmlformats-officedocument.spreadsheetml.sheet" ∨
          fd.mimetype = "application/vnd.ms-excel" then
    (processExcel fd env).map fun r => { payload := some (.excel r) }
  else if fd.mimetype = "text/plain" then
    .ok { payload := some (.text (processText fd.buffer)) }
  else
    .ok { status := some "completed"
          message := some "File uploaded successfully but no specific processing available"
          fileInfo := some (fd.size, fd.mimetype) }

/-- The object returned by the `catch` block of `processFileInternal`:
fixed wording carrying nothing from the thrown error, whose message is
only logged. -/
def sanitizedResult (startTime clock1 : Nat) : JobResult :=
  { status := some "error"
    error := some "Processing failed"
    message := some "The file could not be processed successfully"
    endTime := some (isoOf clock1)
    processingDuration := some (clock1 - startTime) }

/-- `FileProcessingService.processFileInternal`.  A `.error` return value
would model the JavaScript function completing by throwing; the `catch`
branch instead returns the sanitized object as an ordinary value, so both
arms below produce `.ok`. -/
def processFileInternal (fd : FileData) (env : Env) : Except String JobResult :=
  let startTime := env.clock0
  let _processingResult := initialResult startTime
  match dispatchSwitch fd env with
  | .ok r =>
    .ok { r with
          endTime := some (isoOf env.clock1)
          processingDuration := some (env.clock1 - startTime)
          status := some "completed" }
  | .error _e =>
    .ok (sanitizedResult startTime env.clock1)

/-- How `processNext` settles the promise stored with a queue entry. -/
inductive Settle where
  | resolve (r : JobResult)
  | reject (e : String)
  deriving DecidableEq

/-- The `try { job.resolve(await processFileInternal(...)) } catch
{ job.reject(error) }` of `processNext`: resolve with the returned value,
reject only if `processFileInternal` itself throws. -/
def settleJob (fd : FileData) (env : Env) : Settle :=
  match processFileInternal fd env with
  | .ok result => .resolve result
  | .error e => .reject e

/-! ## The admission queue and scheduling loop

`processFile` pushes an entry onto the module-level `processingQueue` and
pokes `processNext`; `processNext` refuses to start work when
`currentJobs >= MAX_CONCURRENT_JOBS` or the queue is empty, otherwise it
shifts the oldest entry off the front and increments `currentJobs`; when
the dispatched job finishes — successfully or not — the `finally` block
decrements `currentJobs` and schedules another `processNext` attempt.
The model is an event-level transition system over that shared state,
with history fields (`started`, `done`, `submitted`) recording the order
in which events happened.  The counter is an integer, as in the source,
so that its non-negativity is a statement and not a typing artifact. -/

/-- `const MAX_CONCURRENT_JOBS = 3`. -/
def MAX_CONCURRENT_JOBS : Int := 3

/-- The shared scheduling state: `backlog` is `processingQueue`,
`currentJobs` the active-job counter, `running` the multiset of jobs
between their shift/increment and their `finally` decrement, and
`started` / `done` / `submitted` are event histories (oldest first). -/
structure Sched (α : Type) where
  backlog : List α
  running : List α
  started : List α
  done : List α
  submitted : List α
  currentJobs : Int
  deriving DecidableEq

/-- The state at module load: empty queue, zero counter. -/
def initSched {α : Type} : Sched α :=
  { backlog := [], running := [], started := [], done := [], submitted := [], currentJobs := 0 }

/-- `processFile`: append the new entry to the backlog. -/
def submitStep {α : Type} (s : Sched α) (j : α) : Sched α :=
  { s with backlog := s.backlog ++ [j], submitted := s.submitted ++ [j] }

/-- The body of `processNext` past its guard: shift the oldest entry off
the front of the queue, increment the counter, and begin executing it. -/
def dispatchStep {α : Type} (s : Sched α) : Sched α :=
  match s.backlog with
  | [] => s
  | j :: rest =>
    { s with backlog := rest
             running := s.running ++ [j]
             started := s.started ++ [j]
             currentJobs := s.currentJobs + 1 }

/-- The `finally` block observed when one executing job finishes (in any
order, with any outcome): remove it from the running multiset, record it
settled, decrement the counter. -/
def completeStep {α : Type} (s : Sched α) (i : Fin s.running.length) : Sched α :=
  { s with running := s.running.eraseIdx i
           done := s.done ++ [s.running.get i]
           currentJobs := s.currentJobs - 1 }

/-- One scheduling event.  `dispatch` carries the guard of `processNext`:
it fires only under the concurrency cap and with a non-empty backlog. -/
inductive Step {α : Type} : Sched α → Sched α → Prop where
  | submit (s : Sched α) (j : α) : Step s (submitStep s j)
  | dispatch (s : Sched α) (hcap : s.currentJobs < MAX_CONCURRENT_JOBS)
      (hne : s.backlog ≠ []) : Step s (dispatchStep s)
  | complete (s : Sched α) (i : Fin s.running.length) : Step s (completeStep s i)

/-- States reachable from module load by scheduling events. -/
def Reachable {α : Type} (s : Sched α) : Prop :=
  Relation.ReflTransGen Step initSched s

/-- The scheduling invariant: the counter mirrors the number of executing
jobs and respects the cap; execution starts followed by the waiting
backlog reproduce the submission order; and the settled plus executing
jobs are exactly the started ones. -/
def SchedInv {α : Type} (s : Sched α) : Prop :=
  s.currentJobs = (s.running.length : Int) ∧
  s.running.length ≤ 3 ∧
  s.started ++ s.backlog = s.submitted ∧
  (s.done ++ s.running).Perm s.started

theorem schedInv_init {α : Type} : SchedInv (initSched (α := α)) := by
  refine ⟨rfl, by simp [initSched], rfl, by simp [initSched]⟩

theorem perm_get_cons_eraseIdx {α : Type} :
    ∀ (l : List α) (i : Fin l.length), (l.get i :: l.eraseIdx i).Perm l
  | _ :: _, ⟨0, _⟩ => by simp [List.eraseIdx]
  | a :: rest, ⟨k + 1, hk⟩ => by
    have ih := perm_get_cons_eraseIdx rest ⟨k, Nat.lt_of_succ_lt_succ hk⟩
    simp only [List.get, List.eraseIdx]
    exact (List.Perm.swap a _ _).trans (ih.cons a)

theorem schedInv_step {α : Type} {s t : Sched α} (h : Step s t)
    (hs : SchedInv s) : SchedInv t := by
  obtain ⟨hcnt, hcap, horder, hperm⟩ := hs
  cases h with
  | submit j =>
    refine ⟨hcnt, hcap, ?_, hperm⟩
    simp only [submitStep]
    rw [← List.append_assoc, horder]
  | dispatch hcapLt hne =>
    unfold dispatchStep
    cases hb : s.backlog with
    | nil => exact absurd hb hne
    | cons j rest =>
      rw [hb] at horder
      have hlt : s.running.length < 3 := by
        rw [hcnt] at hcapLt
        have h3 : (s.running.length : Int) < 3 := hcapLt
        exact_mod_cast h3
      refine ⟨?_, ?_, ?_, ?_⟩
      · simp [hcnt]
      · simp only [List.length_append, List.length_cons, List.length_nil]
        omega
      · simp only [List.append_assoc, List.singleton_append]
        exact horder
      · have := hperm.append_right [j]
        simpa [← List.append_assoc] using this
  | complete i =>
    have hpos : 0 < s.running.length := i.pos
    have hlen : (s.running.eraseIdx i).length + 1 = s.running.length :=
      List.length_eraseIdx_add_one i.isLt
    refine ⟨?_, ?_, horder, ?_⟩
    · simp only [completeStep, hcnt]
      omega
    · simp only [completeStep]
      omega
    · simp only [completeStep]
      refine List.Perm.trans ?_ hperm
      have hshape : s.done ++ [s.running.get i] ++ s.running.eraseIdx i.1
          = s.done ++ (s.running.get i :: s.running.eraseIdx i.1) := by simp
      rw [hshape]
      exact List.Perm.append_left s.done (perm_get_cons_eraseIdx s.running i)

theorem reachable_schedInv {α : Type} {s : Sched α} (h : Reachable s) :
    SchedInv s := by
  induction h with
  | refl => exact schedInv_init
  | tail _hsteps hstep ih => exact schedInv_step hstep ih

/-- Two units per waiting entry, one per executing job: every dispatch or
completion strictly decreases this measure. -/
def drainMeasure {α : Type} (s : Sched α) : Nat :=
  2 * s.backlog.length + s.running.length

/-! ## Claim theorems -/

/-- C6: the text analyzer splits on newlines for the line count (which is
always at least one, so the average-words-per-line division is defined
even on empty input), splits on whitespace runs discarding empty tokens
for the word count, reports the character count, rounds the average to
one decimal place, and appends the truncation marker to the 200-character
preview exactly when the text is longer; on the input
"hello world\nfoo" it reports 2 lines, 3 words, 15 characters and an
average of 1.5. -/
theorem C6_text_analysis :
    (∀ t : String, 1 ≤ (processText t).textAnalysis.lineCount) ∧
    (∀ t : String, t.length ≤ 200 → (processText t).textAnalysis.preview = t) ∧
    (∀ t : String, 200 < t.length →
      (processText t).textAnalysis.preview = jsSubstringTo t 200 ++ "...") ∧
    (∀ t : String, (processText t).textAnalysis.averageWordsPerLine =
      toFixed1 (jsWords t).length (jsLines t).length) ∧
    (processText "hello world\nfoo").textAnalysis =
      { lineCount := 2, wordCount := 3, characterCount := 15,
        averageWordsPerLine := "1.5", encoding := "UTF-8",
        preview := "hello world\nfoo" } := by
  refine ⟨fun t => jsLines_length_pos t, fun t ht => ?_, fun t ht => ?_, fun t => rfl, by decide⟩
  · have hnot : ¬ 200 < t.length := by omega
    simp only [processText, if_neg hnot]
    rw [jsSubstringTo_of_le t 200 ht]
    exact String.append_empty t
  · simp only [processText, if_pos ht]

theorem C6_text_analysis_witness :
    1 ≤ (processText "abc").textAnalysis.lineCount ∧
    (processText "abc").textAnalysis.preview = "abc" :=
  ⟨C6_text_analysis.1 "abc", C6_text_analysis.2.1 "abc" (by decide)⟩

/-- C5: CSV column-type inference classifies the sampled non-blank values
of a column with the exact precedence number, then email, then date, then
text, and classifies an all-blank column as empty; the four sample-value
examples of the specification evaluate accordingly, both through the
classifier and through the full analyzeCSVColumns pipeline. -/
theorem C5_csv_type_inference :
    (∀ values : List String, values ≠ [] →
      (values.all jsIsNumeric = true → classifyValues values = "number") ∧
      (values.all jsIsNumeric = false → values.any emailTest = true →
        classifyValues values = "email") ∧
      (values.all jsIsNumeric = false → values.any emailTest = false →
        values.any jsDateParseable = true → classifyValues values = "date") ∧
      (values.all jsIsNumeric = false → values.any emailTest = false →
        values.any jsDateParseable = false → classifyValues values = "text")) ∧
    classifyValues [] = "empty" ∧
    classifyValues ["1", "2", "3"] = "number" ∧
    classifyValues ["a@b.com", "x@y.com"] = "email" ∧
    classifyValues ["2024-01-01", "not-a-date"] = "date" ∧
    classifyValues ["foo", "bar"] = "text" ∧
    analyzeCSVColumns [[("a", " ")], [("a", "")]] = [("a", "empty")] ∧
    analyzeCSVColumns [[("a", "1")], [("a", "2")], [("a", "3")]] = [("a", "number")] := by
  refine ⟨fun values hne => ?_, by decide, by decide, by decide, by decide, by decide,
    by decide, by decide⟩
  have hemp : values.isEmpty = false := by
    cases values with
    | nil => exact absurd rfl hne
    | cons v vs => rfl
  refine ⟨fun h1 => ?_, fun h1 h2 => ?_, fun h1 h2 h3 => ?_, fun h1 h2 h3 => ?_⟩
  · simp [classifyValues, hemp, h1]
  · simp [classifyValues, hemp, h1, h2]
  · simp [classifyValues, hemp, h1, h2, h3]
  · simp [classifyValues, hemp, h1, h2, h3]

theorem C5_csv_type_inference_witness :
    classifyValues ["5"] = "number" ∧ classifyValues ["zzz"] = "text" :=
  ⟨(C5_csv_type_inference.1 ["5"] (by decide)).1 (by decide),
   (C5_csv_type_inference.1 ["zzz"] (by decide)).2.2.2 (by decide) (by decide) (by decide)⟩

theorem pdfVersionAt_some_length {cs : List Char} {v : String}
    (h : pdfVersionAt cs = some v) : v.length = 3 := by
  unfold pdfVersionAt at h
  split at h
  · split at h
    · cases h
      rfl
    · exact absurd h (by simp)
  · exact absurd h (by simp)

theorem findPdfVersionIn_some_length {cs : List Char} {v : String}
    (h : findPdfVersionIn cs = some v) : v.length = 3 := by
  induction cs with
  | nil => exact absurd h (by simp [findPdfVersionIn])
  | cons c rest ih =>
    rw [findPdfVersionIn] at h
    cases hpa : pdfVersionAt (c :: rest) with
    | some w =>
      rw [hpa] at h
      cases h
      exact pdfVersionAt_some_length hpa
    | none =>
      rw [hpa] at h
      exact ih h

/-- C7 as stated is false at this input: the version pattern is searched
anywhere within the first ten bytes, not anchored to a leading header, so
a buffer that does not start with a `%PDF-` header still yields `"1.4"`
where the claim requires `"Unknown"`. -/
theorem C7_counterexample :
    extractPDFVersion "ab%PDF-1.4stuff" = "1.4" ∧
    beginsWith "ab%PDF-1.4stuff".toList "%PDF-".toList = false := by
  constructor
  · rfl
  · rfl

/-- C7 amended: the PDF analyzer reports estimatedPages as
`max(1, floor(byteLength / 50000))`, reports the encryption, signature,
image and text flags by raw substring search for their markers, and
extracts the version from the leftmost `%PDF-<digit>.<digit>` occurrence
anywhere within the first ten bytes — a leading header being the common
case — returning "Unknown" exactly when no such occurrence exists
there. -/
theorem C7_pdf_analysis :
    (∀ buffer : String,
      (processPDF buffer).pdfAnalysis.estimatedPages = max 1 (buffer.length / 50000) ∧
      (processPDF buffer).pdfAnalysis.securityFeatures.encrypted = bufIncludes buffer "/Encrypt" ∧
      (processPDF buffer).pdfAnalysis.securityFeatures.hasDigitalSignature = bufIncludes buffer "/Sig" ∧
      (processPDF buffer).pdfAnalysis.hasImages = bufIncludes buffer "/Image" ∧
      (processPDF buffer).pdfAnalysis.hasText = bufIncludes buffer "/Text" ∧
      (processPDF buffer).extractedMetadata.version = extractPDFVersion buffer) ∧
    (∀ (d1 d2 : Char) (rest : List Char), d1.isDigit → d2.isDigit →
      extractPDFVersion (('%' :: 'P' :: 'D' :: 'F' :: '-' :: d1 :: '.' :: d2 :: rest).asString)
        = ([d1, '.', d2]).asString) ∧
    (∀ buffer : String, extractPDFVersion buffer = "Unknown" ↔
      findPdfVersionIn (buffer.toList.take 10) = none) ∧
    extractPDFVersion "%PDF-1.4 sample" = "1.4" ∧
    extractPDFVersion "plain text" = "Unknown" := by
  refine ⟨fun buffer => ⟨rfl, rfl, rfl, rfl, rfl, rfl⟩, fun d1 d2 rest h1 h2 => ?_,
    fun buffer => ?_, rfl, rfl⟩
  · show (match findPdfVersionIn
        (('%' :: 'P' :: 'D' :: 'F' :: '-' :: d1 :: '.' :: d2 :: rest).take 10) with
      | some v => v
      | none => "Unknown") = ([d1, '.', d2]).asString
    have hstep : findPdfVersionIn
        ('%' :: 'P' :: 'D' :: 'F' :: '-' :: d1 :: '.' :: d2 :: rest.take 2)
        = some (([d1, '.', d2]).asString) := by
      rw [findPdfVersionIn]
      simp [pdfVersionAt, h1, h2]
    simpa [List.take] using congrArg
      (fun o => match o with | some v => v | none => "Unknown") hstep
  · unfold extractPDFVersion
    cases hf : findPdfVersionIn (buffer.toList.take 10) with
    | some v =>
      simp only [hf]
      constructor
      · intro hv
        have h3 := findPdfVersionIn_some_length hf
        rw [hv] at h3
        exact absurd h3 (by decide)
      · intro hc
        exact absurd hc (by simp)
    | none => simp [hf]

theorem C7_pdf_analysis_witness :
    (processPDF "tiny").pdfAnalysis.estimatedPages = max 1 ("tiny".length / 50000) ∧
    extractPDFVersion (('%' :: 'P' :: 'D' :: 'F' :: '-' :: '1' :: '.' :: '7' :: []).asString)
      = (['1', '.', '7']).asString :=
  ⟨(C7_pdf_analysis.1 "tiny").1,
   C7_pdf_analysis.2.1 '1' '7' [] (by decide) (by decide)⟩

/-- No branch of the media-type switch ever assigns a startTime property:
each branch stores a fresh object, replacing the initial one that held
the field. -/
theorem dispatchSwitch_startTime_none {fd : FileData} {env : Env} {r : JobResult}
    (h : dispatchSwitch fd env = .ok r) : r.startTime = none := by
  unfold dispatchSwitch at h
  split_ifs at h
  · cases hi : processImage fd env <;> rw [hi] at h <;> simp [Except.map] at h
    rw [← h]
  · cases hc : processCSV fd env <;> rw [hc] at h <;> simp [Except.map] at h
    rw [← h]
  · cases h
    rfl
  · cases he : processExcel fd env <;> rw [he] at h <;> simp [Except.map] at h
    rw [← h]
  · cases h
    rfl
  · cases h
    rfl

/-- Example fixtures for concrete runs of the dispatcher. -/
def exampleTextFile : FileData :=
  { id := "f1", mimetype := "text/plain", size := 2, buffer := "hi", filename := "a.txt" }

/-- An environment whose host-library calls are never consulted by the
branch under test. -/
def exampleEnv : Env :=
  { clock0 := 0, clock1 := 5, sharpMeta := .error "unused",
    thumbnailWrite := .error "unused", csvParse := .error "unused",
    xlsxRead := .error "unused" }

/-- A CSV submission whose parser stream fails. -/
def csvFile : FileData :=
  { id := "c1", mimetype := "text/csv", size := 4, buffer := "a,b", filename := "d.csv" }

/-- An environment in which the csv-parser stream throws. -/
def csvErrEnv : Env :=
  { clock0 := 10, clock1 := 25, sharpMeta := .error "x",
    thumbnailWrite := .error "x", csvParse := .error "bad stream",
    xlsxRead := .error "x" }

/-- C2: when the analyzer invocation throws, processFileInternal returns
— not throws — the fixed sanitized object, whose status, error and
message fields are constants independent of the exception text, so the
technical message never reaches the handle; and the completion transition
of the scheduler decrements the counter, leaves the waiting backlog
untouched, is a legal step for any running job, and leaves a dispatch of
the next waiting entry enabled whenever capacity and backlog allow. -/
theorem C2_error_sanitization :
    (∀ (fd : FileData) (env : Env) (e : String),
      dispatchSwitch fd env = .error e →
      processFileInternal fd env = .ok (sanitizedResult env.clock0 env.clock1) ∧
      (sanitizedResult env.clock0 env.clock1).status = some "error" ∧
      (sanitizedResult env.clock0 env.clock1).error = some "Processing failed" ∧
      (sanitizedResult env.clock0 env.clock1).message =
        some "The file could not be processed successfully" ∧
      (sanitizedResult env.clock0 env.clock1).payload = none) ∧
    (∀ (s : Sched Nat) (i : Fin s.running.length),
      (completeStep s i).currentJobs = s.currentJobs - 1 ∧
      (completeStep s i).backlog = s.backlog ∧
      Step s (completeStep s i) ∧
      ((completeStep s i).currentJobs < MAX_CONCURRENT_JOBS →
        (completeStep s i).backlog ≠ [] →
        Step (completeStep s i) (dispatchStep (completeStep s i)))) := by
  constructor
  · intro fd env e h
    refine ⟨?_, rfl, rfl, rfl, rfl⟩
    unfold processFileInternal
    rw [h]
  · intro s i
    exact ⟨rfl, rfl, Step.complete s i,
      fun hcap hne => Step.dispatch (completeStep s i) hcap hne⟩

/-- A scheduler state with one executing and one waiting job. -/
def schedPair : Sched Nat :=
  { backlog := [2], running := [1], started := [1], done := [],
    submitted := [1, 2], currentJobs := 1 }

theorem C2_error_sanitization_witness :
    processFileInternal csvFile csvErrEnv = .ok (sanitizedResult 10 25) ∧
    (completeStep schedPair ⟨0, by decide⟩).currentJobs = schedPair.currentJobs - 1 :=
  ⟨(C2_error_sanitization.1 csvFile csvErrEnv "CSV processing failed: bad stream" rfl).1,
   (C2_error_sanitization.2 schedPair ⟨0, by decide⟩).1⟩

/-- C4 as stated is false at this input: the result delivered for a
successfully processed text file carries no startTime property —
the switch replaced the initial object that held it. -/
theorem C4_counterexample :
    Except.map JobResult.startTime (processFileInternal exampleTextFile exampleEnv)
      = .ok none := rfl

/-- C4 amended: every result delivered to a handle — for every media type
and on both the success and the error path — carries endTime, the
millisecond duration (field `processingDuration`) and a status that is
`completed` or `error`, all set by the dispatcher with the clock captured
before dispatch used for the duration; the startTime field itself,
however, is absent from every delivered result, because each switch
branch replaces the initial result object that carried it. -/
theorem C4_result_bookkeeping (fd : FileData) (env : Env) (r : JobResult)
    (h : processFileInternal fd env = .ok r) :
    r.endTime = some (isoOf env.clock1) ∧
    r.processingDuration = some (env.clock1 - env.clock0) ∧
    (r.status = some "completed" ∨ r.status = some "error") ∧
    r.startTime = none := by
  unfold processFileInternal at h
  cases hd : dispatchSwitch fd env with
  | ok r0 =>
    rw [hd] at h
    cases h
    refine ⟨rfl, rfl, Or.inl rfl, ?_⟩
    show r0.startTime = none
    exact dispatchSwitch_startTime_none hd
  | error e =>
    rw [hd] at h
    cases h
    exact ⟨rfl, rfl, Or.inr rfl, rfl⟩

theorem C4_result_bookkeeping_witness :
    ∃ r : JobResult, processFileInternal exampleTextFile exampleEnv = .ok r ∧
      (r.endTime = some (isoOf exampleEnv.clock1) ∧
       r.processingDuration = some (exampleEnv.clock1 - exampleEnv.clock0) ∧
       (r.status = some "completed" ∨ r.status = some "error") ∧
       r.startTime = none) :=
  ⟨{ endTime := some (isoOf 5), processingDuration := some 5,
     status := some "completed", payload := some (.text (processText "hi")) },
   rfl,
   C4_result_bookkeeping exampleTextFile exampleEnv _ rfl⟩

/-- C8: a submission whose declared media type has no switch case always
completes with the generic fallback result — status completed, the fixed
message, and a fileInfo carrying exactly the file size and media type; an
unsupported type is never turned into an error result. -/
theorem C8_unsupported_type_fallback (fd : FileData) (env : Env)
    (h : fd.mimetype ∉ SUPPORTED_TYPES) :
    processFileInternal fd env =
      .ok { status := some "completed"
            message := some "File uploaded successfully but no specific processing available"
            fileInfo := some (fd.size, fd.mimetype)
            endTime := some (isoOf env.clock1)
            processingDuration := some (env.clock1 - env.clock0) } := by
  simp only [SUPPORTED_TYPES, List.mem_cons, List.not_mem_nil, or_false, not_or] at h
  obtain ⟨h1, h2, h3, h4, h5, h6, h7, h8⟩ := h
  unfold processFileInternal dispatchSwitch
  simp [h1, h2, h3, h4, h5, h6, h7, h8]

/-- A media type outside the switch. -/
def zipFile : FileData :=
  { id := "z", mimetype := "application/zip", size := 7, buffer := "PK", filename := "a.zip" }

theorem C8_unsupported_type_fallback_witness :
    processFileInternal zipFile exampleEnv =
      .ok { status := some "completed"
            message := some "File uploaded successfully but no specific processing available"
            fileInfo := some (7, "application/zip")
            endTime := some (isoOf 5)
            processingDuration := some 5 } :=
  C8_unsupported_type_fallback zipFile exampleEnv (by decide)

/-- C10: the promise returned by processFile resolves and never rejects:
processFileInternal completes by returning on both of its paths — its
catch returns the error-shaped object as an ordinary value — so the
reject callback stored with the queue entry is unreachable, and an
analyzer failure reaches the caller only as a resolved result whose
status is error. -/
theorem C10_never_rejects (fd : FileData) (env : Env) :
    (∃ r : JobResult, processFileInternal fd env = .ok r ∧
      settleJob fd env = .resolve r ∧
      (∀ e : String, dispatchSwitch fd env = .error e → r.status = some "error")) ∧
    (∀ e : String, settleJob fd env ≠ .reject e) := by
  have hok : ∃ r : JobResult, processFileInternal fd env = .ok r ∧
      (∀ e : String, dispatchSwitch fd env = .error e → r.status = some "error") := by
    unfold processFileInternal
    cases hd : dispatchSwitch fd env with
    | ok r0 =>
      exact ⟨_, rfl, fun e he => by cases he⟩
    | error e0 =>
      exact ⟨_, rfl, fun e _he => rfl⟩
  obtain ⟨r, hr, herr⟩ := hok
  refine ⟨⟨r, hr, ?_, herr⟩, ?_⟩
  · unfold settleJob
    rw [hr]
  · intro e
    unfold settleJob
    rw [hr]
    intro hc
    cases hc

theorem C10_never_rejects_witness :
    (∃ r : JobResult, settleJob csvFile csvErrEnv = .resolve r) ∧
    settleJob csvFile csvErrEnv ≠ .reject "CSV processing failed: bad stream" :=
  ⟨((C10_never_rejects csvFile csvErrEnv).1).elim
      (fun r hr => ⟨r, hr.2.1⟩),
   (C10_never_rejects csvFile csvErrEnv).2 _⟩

/-- C1: in every state reachable by submissions, dispatches and
completions, the active-job counter is exactly the number of
simultaneously executing analyzer invocations, never goes negative and
never exceeds MAX_CONCURRENT_JOBS = 3 — in particular for any number of
submitted jobs, however large. -/
theorem C1_concurrency_bound (s : Sched Nat) (h : Reachable s) :
    0 ≤ s.currentJobs ∧ s.currentJobs ≤ MAX_CONCURRENT_JOBS ∧
    s.currentJobs = (s.running.length : Int) ∧ s.running.length ≤ 3 := by
  obtain ⟨hcnt, hcap, -, -⟩ := reachable_schedInv h
  refine ⟨?_, ?_, hcnt, hcap⟩
  · rw [hcnt]
    exact_mod_cast Nat.zero_le _
  · rw [hcnt]
    show (s.running.length : Int) ≤ 3
    exact_mod_cast hcap

/-- A concrete reachable state: one submission, then its dispatch. -/
def schedEx : Sched Nat := dispatchStep (submitStep initSched 7)

theorem schedEx_reachable : Reachable schedEx :=
  Relation.ReflTransGen.tail
    (Relation.ReflTransGen.tail Relation.ReflTransGen.refl
      (Step.submit initSched 7))
    (Step.dispatch (submitStep initSched 7) (by decide) (by decide))

theorem C1_concurrency_bound_witness :
    0 ≤ schedEx.currentJobs ∧ schedEx.currentJobs ≤ MAX_CONCURRENT_JOBS ∧
    schedEx.currentJobs = (schedEx.running.length : Int) ∧ schedEx.running.length ≤ 3 :=
  C1_concurrency_bound schedEx schedEx_reachable

/-- C3: FIFO admission — in every reachable state, the jobs that have
begun execution, in the order they started, followed by the still-waiting
backlog in queue order, reproduce the submission order exactly; hence the
start order is a prefix of the submission order and no waiting entry ever
overtakes an earlier-submitted one. -/
theorem C3_fifo_admission (s : Sched Nat) (h : Reachable s) :
    s.started ++ s.backlog = s.submitted ∧ s.started <+: s.submitted := by
  obtain ⟨-, -, horder, -⟩ := reachable_schedInv h
  exact ⟨horder, ⟨s.backlog, horder⟩⟩

theorem C3_fifo_admission_witness :
    schedEx.started ++ schedEx.backlog = schedEx.submitted ∧
    schedEx.started <+: schedEx.submitted :=
  C3_fifo_admission schedEx schedEx_reachable

/-- C9: total settlement — in any reachable state in which some job is
still waiting or executing, a dispatch or completion step (adding no new
submissions) is enabled and strictly decreases the drain measure, so
every maximal run of the scheduler reaches quiescence after finitely many
steps; and in any quiescent reachable state the settled jobs are exactly
the submitted jobs.  Jobs cannot be left pending: the analyzers, modelled
by the total function processFileInternal, always hand their job back to
the finally block that fires the completion transition. -/
theorem C9_total_settlement (s : Sched Nat) (h : Reachable s) :
    ((s.backlog ≠ [] ∨ s.running ≠ []) →
      ∃ t : Sched Nat, Step s t ∧ t.submitted = s.submitted ∧
        drainMeasure t < drainMeasure s) ∧
    (s.backlog = [] → s.running = [] → s.done.Perm s.submitted) := by
  obtain ⟨hcnt, hcap, horder, hperm⟩ := reachable_schedInv h
  constructor
  · intro hbusy
    cases hr : s.running with
    | cons r rs =>
      refine ⟨completeStep s ⟨0, by rw [hr]; exact Nat.succ_pos _⟩,
        Step.complete s _, rfl, ?_⟩
      unfold drainMeasure completeStep
      simp only [hr, List.eraseIdx]
      simp [List.length_cons]
    | nil =>
      have hb : s.backlog ≠ [] := by
        cases hbusy with
        | inl hb => exact hb
        | inr hrun => exact absurd hr hrun
      have hcap0 : s.currentJobs < MAX_CONCURRENT_JOBS := by
        rw [hcnt, hr]
        decide
      refine ⟨dispatchStep s, Step.dispatch s hcap0 hb, ?_, ?_⟩
      · unfold dispatchStep
        cases hbl : s.backlog with
        | nil => exact absurd hbl hb
        | cons j rest => rfl
      · unfold dispatchStep drainMeasure
        cases hbl : s.backlog with
        | nil => exact absurd hbl hb
        | cons j rest =>
          simp only [hr, List.length_nil, List.length_cons, List.length_append]
          omega
  · intro hb hr
    rw [hb, List.append_nil] at horder
    rw [hr, List.append_nil] at hperm
    rw [← horder]
    exact hperm

theorem C9_total_settlement_witness :
    ∃ t : Sched Nat, Step schedEx t ∧ t.submitted = schedEx.submitted ∧
      drainMeasure t < drainMeasure schedEx :=
  (C9_total_settlement schedEx schedEx_reachable).1 (Or.inr (by decide))

end FileProc
